import Mathlib

/-!
Shallow embedding of the snex JIT register-allocation layer
(AssemblyRegister.cpp: classes AssemblyRegister and AssemblyRegisterPool),
together with proofs about its resolve / materialize / write / flush /
release operations.

External collaborators (BaseScope, BaseCompiler, the asmjit X86Compiler,
juce reference counting) are modelled abstractly: scopes are numeric
identifiers interpreted through a `World` record, the code emitter is a
state that records virtual-register allocations and emitted instructions,
and the juce reference count of a handle is an input of the release
operation, since it is maintained by the smart-pointer runtime outside
this translation unit.
-/

set_option autoImplicit false

namespace Snex

/-- snex Types ID, restricted to the register-level value kinds that
AssemblyRegister.cpp dispatches on. -/
inductive TypesID
| Void
| Pointer
| Float
| Double
| Integer
| Block
| Dynamic
deriving DecidableEq, Repr

/-- Modelled from the spec: TypeInfo (the declared type of a value) is defined
outside this translation unit.  `regType` is the answer of the collaborator
call `compiler->getRegisterType(type)` (the register-level kind of the type);
`simd4` is the answer of `isSimd4Float()` (a float-by-4 span with the
auto-vectorisation optimization enabled); `constFlag` records constness.
TypeInfo equality (used by `matchesMemoryLocation`) is structural. -/
structure TypeInfo where
  regType : TypesID
  constFlag : Bool := false
  simd4 : Bool := false
deriving DecidableEq, Repr

/-- Modelled from the spec: a Symbol is an identifier with declared type and
const/reference flags.  The numeric `uid` stands for the namespaced
identifier, which encodes the declaring path, so two Symbols are equal iff
their `uid` fields are equal (spec: equal iff identifier and scope match). -/
structure Symbol where
  uid : Nat
  typeInfo : TypeInfo
  isReference : Bool := false
  isConst : Bool := false
deriving DecidableEq, Repr

/-- BaseScope::ScopeType of the scope-resolver collaborator. -/
inductive ScopeType
| Global
| Class
| Function
| Anonymous
deriving DecidableEq, Repr

/-- The scope-resolver collaborator and the process memory, modelled
abstractly.  Scopes and addresses are numeric identifiers.
`scopeForSymbol s i` is `s->getScopeForSymbol(i)` (none models nullptr),
`rootClassScope s` is `s->getRootClassScope()`,
`rootDataContains s i` is `s->rootData->contains(i)`, and
`deref a` is the scalar value stored at address `a`. -/
structure World where
  scopeForSymbol : Nat → Nat → Option Nat
  scopeType : Nat → ScopeType
  rootClassScope : Nat → Nat
  rootDataContains : Nat → Nat → Bool
  deref : Nat → Int

/-- An asmjit X86Mem operand: optional base register, optional index
register, displacement, operand size in bytes, and an optional constant-pool
label (for operands returned by newFloatConst / newDoubleConst).  Equality is
structural, matching asmjit operand equality. -/
structure X86Mem where
  base : Option Nat := none
  index : Option Nat := none
  offset : Int := 0
  size : Nat := 0
  label : Option Nat := none
deriving DecidableEq, Repr

def X86Mem.hasBaseOrIndex (m : X86Mem) : Bool :=
  m.base.isSome || m.index.isSome

/-- asmjit Mem::hasOffset, modelled as a nonzero displacement. -/
def X86Mem.hasOffset (m : X86Mem) : Bool :=
  m.offset != 0

/-- AssemblyRegister::State.  The enum (declared in the class header) has the
four states used throughout AssemblyRegister.cpp plus ReusableRegister, which
the .cpp file references only under the disabled REMOVE_REUSABLE_REG compile
flag. -/
inductive State
| UnloadedMemoryLocation
| LoadedMemoryLocation
| ActiveRegister
| DirtyGlobalRegister
| ReusableRegister
deriving DecidableEq, Repr

/-- The register classes handed out by the asmjit compiler in
AssemblyRegister::createRegister. -/
inductive RegClass
| XmmSs
| XmmSd
| Gpd
| Gpq
| XmmPs
deriving DecidableEq, Repr

/-- Instructions emitted through the asmjit compiler by
loadMemoryIntoRegister and createMemoryLocation. -/
inductive EmitOp
| movssLoad (dst : Nat) (src : X86Mem)
| movsdLoad (dst : Nat) (src : X86Mem)
| movMemLoad (dst : Nat) (src : X86Mem)
| movImm (dst : Nat) (value : Int)
| leaOp (dst : Nat) (src : X86Mem)
| movapsLoad (dst : Nat) (src : X86Mem)
| movAbsAddress (dst : Nat) (addr : Nat)
deriving DecidableEq, Repr

/-- Whether an emitted instruction reads from memory (the load operations of
the emitter collaborator).  `movImm` and `movAbsAddress` move immediates and
`leaOp` only computes an address. -/
def EmitOp.isMemoryLoad : EmitOp → Bool
| movssLoad _ _ => true
| movsdLoad _ _ => true
| movMemLoad _ _ => true
| movapsLoad _ _ => true
| movImm _ _ => false
| leaOp _ _ => false
| movAbsAddress _ _ => false

/-- The asmjit X86Compiler, modelled as the state visible to this file: a
fresh-virtual-register counter with the allocation list, a fresh
constant-pool counter, and the trace of emitted instructions. -/
structure Emitter where
  nextVReg : Nat := 0
  allocs : List (Nat × RegClass) := []
  nextConst : Nat := 0
  trace : List EmitOp := []
deriving DecidableEq, Repr

/-- newXmmSs / newXmmSd / newGpd / newGpq / newXmmPs: allocate a fresh
virtual register of the given class. -/
def Emitter.newVirtReg (cc : Emitter) (k : RegClass) : Emitter × Nat :=
  ({ cc with nextVReg := cc.nextVReg + 1, allocs := cc.allocs ++ [(cc.nextVReg, k)] },
    cc.nextVReg)

/-- Append an emitted instruction to the trace. -/
def Emitter.emit (cc : Emitter) (e : EmitOp) : Emitter :=
  { cc with trace := cc.trace ++ [e] }

/-- newFloatConst / newDoubleConst: a fresh constant-pool memory operand. -/
def Emitter.newConstMem (cc : Emitter) : Emitter × X86Mem :=
  ({ cc with nextConst := cc.nextConst + 1 }, { label := some cc.nextConst })

/-- The AssemblyRegister value handle.  `debugId` is the unique id minted by
the file-static counter in the constructor and stands for object (pointer)
identity.  `reg` is the assigned virtual register (none models an invalid
asmjit register), `memory` the X86Mem operand, `memoryLocation` the raw data
pointer, `id` the bound Symbol (none models a default-constructed Symbol with
the null identifier).  Field defaults are modelled from the spec (the header
with the in-class initializers is outside this translation unit): a fresh
handle is unmaterialized, clean, and owns no register, memory or symbol. -/
structure AssemblyRegister where
  debugId : Nat
  type : TypeInfo
  scope : Nat
  state : State := .UnloadedMemoryLocation
  dirty : Bool := false
  reg : Option Nat := none
  memory : X86Mem := {}
  memoryLocation : Option Nat := none
  immediateIntValue : Int := 0
  hasCustomMem : Bool := false
  globalMemory : Bool := false
  isIter : Bool := false
  numMemoryReferences : Nat := 0
  isZeroValue : Bool := false
  id : Option Symbol := none
deriving DecidableEq, Repr

namespace AssemblyRegister

/-- Modelled from the spec: the header accessor for the custom-memory flag
set by setCustomMemoryLocation and the global branch of
createMemoryLocation (an explicit, already resolved memory operand). -/
def hasCustomMemoryLocation (h : AssemblyRegister) : Bool :=
  h.hasCustomMem

def getTypeInfo (h : AssemblyRegister) : TypeInfo :=
  h.type

/-- compiler->getRegisterType(type). -/
def getType (h : AssemblyRegister) : TypesID :=
  h.type.regType

def isSimd4Float (h : AssemblyRegister) : Bool :=
  h.type.simd4

/-- scope->getRootClassScope()->rootData->contains(id.id); a handle with no
bound symbol carries the null identifier, which the root data never
contains. -/
def isGlobalVariableRegister (h : AssemblyRegister) (w : World) : Bool :=
  match h.id with
  | some s => w.rootDataContains (w.rootClassScope h.scope) s.uid
  | none => false

def isGlobalMemory (h : AssemblyRegister) (w : World) : Bool :=
  (h.hasCustomMem && h.globalMemory) || h.isGlobalVariableRegister w

def isDirtyGlobalMemory (h : AssemblyRegister) (w : World) : Bool :=
  h.dirty && h.isGlobalMemory w

def isMemoryLocation (h : AssemblyRegister) : Bool :=
  h.state == .LoadedMemoryLocation

def isActive (h : AssemblyRegister) : Bool :=
  h.state == .ActiveRegister

def isActiveOrDirtyGlobalRegister (h : AssemblyRegister) : Bool :=
  h.state == .ActiveRegister || h.state == .DirtyGlobalRegister

/-- getMemoryLocationForReference (the stored memory operand). -/
def getMemoryLocationForReference (h : AssemblyRegister) : X86Mem :=
  h.memory

/-- AssemblyRegister::matchesMemoryLocation(Ptr other): both handles must
have an explicit custom memory location and equal TypeInfo, and then the
memory operands are compared by value; the bound Symbols are never
consulted. -/
def matchesMemoryLocation (r other : AssemblyRegister) : Bool :=
  let bothAreMemory := r.hasCustomMemoryLocation && other.hasCustomMemoryLocation
  let typeMatch := other.getTypeInfo == r.getTypeInfo
  if typeMatch && bothAreMemory then
    other.getMemoryLocationForReference == r.memory
  else
    false

/-- Modelled from the spec: Symbol equality (operator== is declared outside
this translation unit); two Symbols are equal iff identifier and scope
match, both encoded in the namespaced identifier `uid`. -/
def symbolMatches (a b : Symbol) : Bool :=
  a.uid == b.uid

/-- AssemblyRegister::matchesScopeAndSymbol: the declaring scope resolved
from the queried scope must be the scope stored in the handle, and the
queried symbol must equal the bound symbol. -/
def matchesScopeAndSymbol (h : AssemblyRegister) (w : World) (scopeToCheck : Nat)
    (symbol : Symbol) : Bool :=
  let scopeMatches := w.scopeForSymbol scopeToCheck symbol.uid == some h.scope
  let symMatches :=
    match h.id with
    | some i => symbolMatches symbol i
    | none => false
  scopeMatches && symMatches

/-- AssemblyRegister::setReference: bind the symbol and move the handle to
the declaring scope resolved for the symbol (falling back to the requested
scope when resolution fails). -/
def setReference (h : AssemblyRegister) (w : World) (s : Nat) (ref : Symbol) :
    AssemblyRegister :=
  let refScope := (w.scopeForSymbol s ref.uid).getD s
  { h with scope := refScope, id := some ref }

/-- AssemblyRegister::getRegisterForReadOp is const: it returns the stored
register and changes nothing on the handle (the pair makes the absence of
mutation explicit). -/
def getRegisterForReadOp (h : AssemblyRegister) : AssemblyRegister × Option Nat :=
  (h, h.reg)

/-- AssemblyRegister::getRegisterForWriteOp.  The first component is the
handle with the mutations the C++ method performed on the object (they
persist even when the method throws); the second is the returned register,
or the thrown juce String (source wording uses a contraction of cannot).
The debug-build jassert preconditions (active state, valid register,
non-null scope) do not alter release behaviour and are not part of the
function.  Only dirty and state are mutated along the way, so the other
fields the method reads from the object are read from `h` directly. -/
def getRegisterForWriteOp (h : AssemblyRegister) (w : World) :
    AssemblyRegister × Except String (Option Nat) :=
  let h1 := if h.isGlobalMemory w then
    { h with dirty := true, state := .DirtyGlobalRegister } else h
  match h.id with
  | none => (h1, Except.ok h.reg)
  | some sym =>
    let h2 := if h.isIter then { h1 with dirty := true } else h1
    let sToUse := (w.scopeForSymbol h.scope sym.uid).getD h.scope
    if !h.isIter && (w.rootClassScope sToUse == sToUse || sym.isReference) then
      if h.memoryLocation.isSome then
        ({ h2 with dirty := true, state := .DirtyGlobalRegister }, Except.ok h.reg)
      else
        (h2, Except.ok h.reg)
    else if w.scopeType sToUse == .Global then
      (h2, Except.error "cannot write to global variables")
    else
      (h2, Except.ok h.reg)

/-- The situation of the write-rejection branch of getRegisterForWriteOp: a
bound symbol whose resolved declaring scope is of Global type while the
handle is not in the root-class-or-reference register context (or is an
iterator). -/
def isPureGlobalWriteTarget (h : AssemblyRegister) (w : World) : Bool :=
  match h.id with
  | none => false
  | some sym =>
    let sToUse := (w.scopeForSymbol h.scope sym.uid).getD h.scope
    !(!h.isIter && (w.rootClassScope sToUse == sToUse || sym.isReference)) &&
      w.scopeType sToUse == .Global

/-- AssemblyRegister::setUndirty. -/
def setUndirty (h : AssemblyRegister) : AssemblyRegister :=
  if h.dirty && h.isActiveOrDirtyGlobalRegister then
    { h with dirty := false, state := .ActiveRegister }
  else
    h

/-- AssemblyRegister::setCustomMemoryLocation. -/
def setCustomMemoryLocation (h : AssemblyRegister) (newLocation : X86Mem)
    (isGlobalMemory_ : Bool) : AssemblyRegister :=
  { h with memory := newLocation, dirty := false, globalMemory := isGlobalMemory_,
           reg := none, state := .LoadedMemoryLocation, hasCustomMem := true }

/-- AssemblyRegister::setDataPointer. -/
def setDataPointer (h : AssemblyRegister) (memLoc : Option Nat)
    (globalMemory_ : Bool) : AssemblyRegister :=
  { h with memoryLocation := memLoc, reg := none, globalMemory := globalMemory_,
           state := .UnloadedMemoryLocation, hasCustomMem := false }

/-- AssemblyRegister::setImmediateValue. -/
def setImmediateValue (h : AssemblyRegister) (value : Int) : AssemblyRegister :=
  { h with immediateIntValue := value, state := .UnloadedMemoryLocation,
           memoryLocation := none, reg := none, hasCustomMem := false }

/-- AssemblyRegister::invalidateRegisterForCustomMemory. -/
def invalidateRegisterForCustomMemory (h : AssemblyRegister) : AssemblyRegister :=
  { h with dirty := false, reg := none, state := .LoadedMemoryLocation }

/-- AssemblyRegister::createMemoryLocation.  For a non-pointer, non-const
global variable register the data address is moved into a fresh register and
a dword/qword operand based on it becomes an explicit custom memory
location; otherwise the operand is resolved per type: float and double
values become constant-pool entries, integers keep (or read) the immediate
value, and pointers become an absolute operand at the stored data pointer.
Both branches end in state LoadedMemoryLocation. -/
def createMemoryLocation (h : AssemblyRegister) (w : World) (cc : Emitter) :
    Emitter × AssemblyRegister :=
  if h.getType != .Pointer && h.isGlobalVariableRegister w &&
      !((h.id.map Symbol.isConst).getD false) then
    let t := h.getType
    let useQword := t == .Double || t == .Block || t == .Pointer
    let (cc1, r) := cc.newVirtReg .Gpq
    let cc2 := cc1.emit (.movAbsAddress r (h.memoryLocation.getD 0))
    let mem : X86Mem := { base := some r, size := if useQword then 8 else 4 }
    (cc2, { h with memory := mem, hasCustomMem := true,
                   state := .LoadedMemoryLocation })
  else
    match h.getType with
    | .Float =>
      let v := w.deref (h.memoryLocation.getD 0)
      let (cc1, mem) := cc.newConstMem
      (cc1, { h with isZeroValue := v == 0, memory := mem,
                     state := .LoadedMemoryLocation })
    | .Double =>
      let v := w.deref (h.memoryLocation.getD 0)
      let (cc1, mem) := cc.newConstMem
      (cc1, { h with isZeroValue := v == 0, memory := mem,
                     state := .LoadedMemoryLocation })
    | .Integer =>
      let v := match h.memoryLocation with
        | some a => w.deref a
        | none => h.immediateIntValue
      (cc, { h with immediateIntValue := v, isZeroValue := v == 0,
                    state := .LoadedMemoryLocation })
    | .Pointer =>
      (cc, { h with memory := { offset := w.deref (h.memoryLocation.getD 0), size := 8 },
                    state := .LoadedMemoryLocation })
    | _ => (cc, { h with state := .LoadedMemoryLocation })

/-- AssemblyRegister::createRegister: reuse a valid register unchanged,
otherwise allocate a fresh virtual register of the class selected by the
register type (the separate ifs of the source are exclusive because getType
is single-valued and the Block TypeInfo comparison checks the same type id)
and become an active register.  The final state assignment is unconditional
in the allocation path, also for the unhandled Dynamic type. -/
def createRegister (h : AssemblyRegister) (cc : Emitter) :
    Emitter × AssemblyRegister :=
  if h.reg.isSome then
    (cc, h)
  else
    let alloc : Option RegClass :=
      if h.getType == .Float then some .XmmSs
      else if h.getType == .Double then some .XmmSd
      else if h.getType == .Integer then some .Gpd
      else if h.type.regType == .Block then some .Gpq
      else if h.getType == .Pointer then
        (if h.isSimd4Float then some .XmmPs else some .Gpq)
      else none
    match alloc with
    | some k =>
      let (cc1, r) := cc.newVirtReg k
      (cc1, { h with reg := some r, state := .ActiveRegister })
    | none =>
      (cc, { h with state := .ActiveRegister })

/-- AssemblyRegister::loadMemoryIntoRegister.  Returns untouched when a valid
register exists and no forced reload is requested; otherwise resolves an
unloaded memory location, short-circuits for already active registers, then
allocates a register and emits the load selected by type: scalar float and
double loads, an immediate move for integers without a custom memory
location, and for pointers a vector load, an address computation, or an
absolute-offset immediate move.  The simd branch goes through
AsmCodeGenerator::createValid64BitPointer (outside this translation unit),
modelled as a vector load from the stored operand. -/
def loadMemoryIntoRegister (h : AssemblyRegister) (w : World) (cc : Emitter)
    (forceLoad : Bool) : Emitter × AssemblyRegister :=
  if !forceLoad && h.reg.isSome then
    (cc, h)
  else
    let q1 := if h.state == .UnloadedMemoryLocation then
      h.createMemoryLocation w cc else (cc, h)
    let cc1 := q1.1
    let h1 := q1.2
    if !forceLoad && h1.state == .ActiveRegister then
      (cc1, h1)
    else
      let q2 := h1.createRegister cc1
      let cc2 := q2.1
      let h2 := q2.2
      let r := h2.reg.getD 0
      let cc3 :=
        match h2.getType with
        | .Float => cc2.emit (.movssLoad r h2.memory)
        | .Double => cc2.emit (.movsdLoad r h2.memory)
        | .Block => if h2.hasCustomMem then cc2.emit (.movMemLoad r h2.memory)
                    else cc2.emit (.movImm r h2.immediateIntValue)
        | .Integer => if h2.hasCustomMem then cc2.emit (.movMemLoad r h2.memory)
                      else cc2.emit (.movImm r h2.immediateIntValue)
        | .Pointer =>
          if h2.isSimd4Float then cc2.emit (.movapsLoad r h2.memory)
          else if h2.hasCustomMem then cc2.emit (.leaOp r h2.memory)
          else if h2.memory.hasOffset && !h2.memory.hasBaseOrIndex then
            cc2.emit (.movImm r h2.memory.offset)
          else cc2
        | _ => cc2
      (cc3, { h2 with state := .ActiveRegister })

end AssemblyRegister

/-- AssemblyRegisterPool: the ordered list of live handles of one compilation
unit, plus the id-minting counter (the file-static `counter` used by the
AssemblyRegister constructor). -/
structure AssemblyRegisterPool where
  currentRegisterPool : List AssemblyRegister := []
  counter : Nat := 0
deriving DecidableEq, Repr

namespace AssemblyRegisterPool

/-- AssemblyRegisterPool::clear. -/
def clear (ps : AssemblyRegisterPool) : AssemblyRegisterPool :=
  { ps with currentRegisterPool := [] }

/-- AssemblyRegisterPool::getListOfAllDirtyGlobals: the pool members with
isDirtyGlobalMemory, in pool order. -/
def getListOfAllDirtyGlobals (ps : AssemblyRegisterPool) (w : World) :
    List AssemblyRegister :=
  ps.currentRegisterPool.filter (fun r => r.isDirtyGlobalMemory w)

/-- AssemblyRegisterPool::getNextFreeRegister (with the REMOVE_REUSABLE_REG
reuse loop disabled): construct a fresh handle for the scope and type and
append it to the pool. -/
def getNextFreeRegister (ps : AssemblyRegisterPool) (scope : Nat)
    (type : TypeInfo) : AssemblyRegisterPool × AssemblyRegister :=
  let newReg : AssemblyRegister := { debugId := ps.counter, type := type, scope := scope }
  ({ currentRegisterPool := ps.currentRegisterPool ++ [newReg],
     counter := ps.counter + 1 }, newReg)

/-- AssemblyRegisterPool::getRegisterForVariable: return the first pool
member matching scope and symbol, else create a fresh handle and bind it via
setReference.  In the source the fresh handle is appended by
getNextFreeRegister and then mutated through the shared pointer; here the
bound handle is appended directly, which yields the same pool. -/
def getRegisterForVariable (ps : AssemblyRegisterPool) (w : World) (scope : Nat)
    (s : Symbol) : AssemblyRegisterPool × AssemblyRegister :=
  match ps.currentRegisterPool.find? (fun r => r.matchesScopeAndSymbol w scope s) with
  | some r => (ps, r)
  | none =>
    let newReg0 : AssemblyRegister :=
      { debugId := ps.counter, type := s.typeInfo, scope := scope }
    let newReg := newReg0.setReference w scope s
    ({ currentRegisterPool := ps.currentRegisterPool ++ [newReg],
       counter := ps.counter + 1 }, newReg)

/-- Remove the first pool entry carrying the given handle id (juce
removeObject removes the stored pointer; pointer identity is the minted
debugId). -/
def removeFirstById : List AssemblyRegister → Nat → List AssemblyRegister
| [], _ => []
| r :: rest, d => if r.debugId == d then rest else r :: removeFirstById rest d

/-- AssemblyRegisterPool::removeIfUnreferenced: drop the handle from the pool
exactly when its observed juce reference count is 2 (the RefPtr stored in the
pool plus the RefPtr argument, i.e. the allocator is the sole holder).  The
count is maintained by the smart-pointer runtime and is an input here. -/
def removeIfUnreferenced (ps : AssemblyRegisterPool) (ref : AssemblyRegister)
    (refCount : Nat) : AssemblyRegisterPool :=
  if refCount == 2 then
    { ps with currentRegisterPool := removeFirstById ps.currentRegisterPool ref.debugId }
  else
    ps

/-- AssemblyRegisterPool::getRegisterWithMemory: a handle without a custom
memory location is returned as is; otherwise the first other pool member
that is a loaded memory location and matches the memory location gets its
alias-reference count incremented and is returned as the survivor. -/
def getRegisterWithMemory (ps : AssemblyRegisterPool) (other : AssemblyRegister) :
    AssemblyRegisterPool × AssemblyRegister :=
  if !other.hasCustomMemoryLocation then
    (ps, other)
  else
    match ps.currentRegisterPool.find? (fun r =>
        r.isMemoryLocation && r.debugId != other.debugId &&
          r.matchesMemoryLocation other) with
    | some r =>
      let r1 := { r with numMemoryReferences := r.numMemoryReferences + 1 }
      ({ ps with currentRegisterPool := (ps.currentRegisterPool.map
          (fun q => if q.debugId == r.debugId then r1 else q)) }, r1)
    | none =>
      (ps, other)

/-- Replace the pool entries carrying the given handle id by the image under
`f` (the C++ operations mutate the pooled object in place through the shared
pointer). -/
def updateById (ps : AssemblyRegisterPool) (d : Nat)
    (f : AssemblyRegister → AssemblyRegister) : AssemblyRegisterPool :=
  { ps with currentRegisterPool := (ps.currentRegisterPool.map
      (fun r => if r.debugId == d then f r else r)) }

/-- The pool entry carrying the given handle id. -/
def findById (ps : AssemblyRegisterPool) (d : Nat) : Option AssemblyRegister :=
  ps.currentRegisterPool.find? (fun r => r.debugId == d)

end AssemblyRegisterPool

/-- Occurrences of a handle id in a handle list. -/
def countById (l : List AssemblyRegister) (d : Nat) : Nat :=
  (l.filter (fun r => r.debugId == d)).length

/-- One compilation unit in flight: the pool and the emitter state. -/
structure Config where
  pool : AssemblyRegisterPool := {}
  cc : Emitter := {}
deriving DecidableEq, Repr

/-- The operations of the allocator API, addressed by handle id where the
C++ caller holds a pointer. -/
inductive PoolOp
| resolveOp (scope : Nat) (s : Symbol)
| materializeOp (d : Nat) (forceLoad : Bool)
| writeOp (d : Nat)
| releaseOp (d : Nat) (refCount : Nat)
| flushOp (d : Nat)
| setImmOp (d : Nat) (v : Int)
| setCustomMemOp (d : Nat) (m : X86Mem) (g : Bool)
| setDataPointerOp (d : Nat) (p : Option Nat) (g : Bool)
deriving DecidableEq, Repr

/-- One allocator operation on a compilation unit.  A write that throws
still keeps the field mutations the method performed before throwing, since
the pooled object survives the unwinding. -/
def step (w : World) (c : Config) : PoolOp → Config
| .resolveOp scope s =>
  { c with pool := (c.pool.getRegisterForVariable w scope s).1 }
| .materializeOp d force =>
  match c.pool.findById d with
  | some r =>
    let q := r.loadMemoryIntoRegister w c.cc force
    { pool := c.pool.updateById d (fun _ => q.2), cc := q.1 }
  | none => c
| .writeOp d =>
  match c.pool.findById d with
  | some r =>
    { c with pool := c.pool.updateById d (fun _ => (r.getRegisterForWriteOp w).1) }
  | none => c
| .releaseOp d rc =>
  match c.pool.findById d with
  | some r => { c with pool := c.pool.removeIfUnreferenced r rc }
  | none => c
| .flushOp d =>
  { c with pool := c.pool.updateById d AssemblyRegister.setUndirty }
| .setImmOp d v =>
  { c with pool := c.pool.updateById d (fun r => r.setImmediateValue v) }
| .setCustomMemOp d m g =>
  { c with pool := c.pool.updateById d (fun r => r.setCustomMemoryLocation m g) }
| .setDataPointerOp d p g =>
  { c with pool := c.pool.updateById d (fun r => r.setDataPointer p g) }

/-- Run a sequence of allocator operations. -/
def runOps (w : World) (c : Config) : List PoolOp → Config
| [] => c
| op :: rest => runOps w (step w c op) rest

/-- The ids of the currently dirty global handles, in the order
getListOfAllDirtyGlobals reports them. -/
def dirtyIds (w : World) (c : Config) : List Nat :=
  (c.pool.getListOfAllDirtyGlobals w).map (fun r => r.debugId)

/-- Append the ids of handles that are dirty globals now but were not
recorded yet (the first time each handle is observed dirty). -/
def recordNewDirty (w : World) (c : Config) (acc : List Nat) : List Nat :=
  acc ++ ((dirtyIds w c).filter (fun d => !acc.contains d))

/-- Run the operations, recording after each step the ids whose handles are
newly observed dirty. -/
def runFirstDirtied (w : World) (c : Config) (acc : List Nat) :
    List PoolOp → List Nat
| [] => acc
| op :: rest =>
  let c1 := step w c op
  runFirstDirtied w c1 (recordNewDirty w c1 acc) rest

/-- The order demanded by the spec sentence on collectDirtyGlobals (spec-side
definition, for comparison with the code): the currently dirty global
handles, ordered by the time each one first became dirty. -/
def firstDirtiedOrder (w : World) (ops : List PoolOp) : List Nat :=
  let final := runOps w {} ops
  (runFirstDirtied w {} [] ops).filter (fun d => (dirtyIds w final).contains d)

/-- A state is exactly one of the four defined states when exactly one of
the four state equalities holds. -/
def inFourStates (s : State) : Bool :=
  ([s == .UnloadedMemoryLocation, s == .LoadedMemoryLocation,
    s == .ActiveRegister, s == .DirtyGlobalRegister].count true) == 1

/-- An integer TypeInfo for concrete runs. -/
def intType : TypeInfo :=
  { regType := TypesID.Integer }

/-- A concrete symbol with uid 1. -/
def sym1 : Symbol :=
  { uid := 1, typeInfo := intType }

/-- A concrete symbol with uid 2. -/
def sym2 : Symbol :=
  { uid := 2, typeInfo := intType }

/-- A concrete symbol with uid 9 (not contained in any root data). -/
def sym9 : Symbol :=
  { uid := 9, typeInfo := intType }

/-- A concrete world: every symbol resolves to the root class scope 0, which
has Class type and whose root data contains the symbols 1 and 2. -/
def exampleWorld : World where
  scopeForSymbol := fun _ _ => some 0
  scopeType := fun _ => ScopeType.Class
  rootClassScope := fun _ => 0
  rootDataContains := fun _ i => i == 1 || i == 2
  deref := fun _ => 7

/-- A concrete world where every symbol resolves to scope 5, which has
Global type and is not its own root class scope: writes through symbols land
in the write-rejection branch. -/
def globalWorld : World where
  scopeForSymbol := fun _ _ => some 5
  scopeType := fun s => if s == 5 then ScopeType.Global else ScopeType.Class
  rootClassScope := fun _ => 0
  rootDataContains := fun _ _ => false
  deref := fun _ => 0

/-- A handle bound to global custom memory, live in register 0. -/
def exampleGlobalHandle : AssemblyRegister :=
  { debugId := 0, type := intType, scope := 0, state := State.ActiveRegister,
    reg := some 0, hasCustomMem := true, globalMemory := true,
    memory := { base := some 3, size := 4 } }

/-- A pool holding exactly the example global handle. -/
def examplePool : AssemblyRegisterPool :=
  { currentRegisterPool := [exampleGlobalHandle], counter := 1 }

/-- A handle whose bound symbol resolves to a pure Global scope in
globalWorld. -/
def pureGlobalHandle : AssemblyRegister :=
  { debugId := 3, type := intType, scope := 1, state := State.ActiveRegister,
    reg := some 2, id := some sym9 }

/-- A concrete resolved memory operand. -/
def memOperandA : X86Mem :=
  { base := some 7, size := 4 }

/-- A loaded pool survivor owning the operand memOperandA. -/
def loadedMemHandle : AssemblyRegister :=
  { debugId := 0, type := intType, scope := 0,
    state := State.LoadedMemoryLocation, hasCustomMem := true,
    memory := memOperandA }

/-- A second handle aliasing the same operand memOperandA. -/
def aliasHandle : AssemblyRegister :=
  { debugId := 1, type := intType, scope := 0, hasCustomMem := true,
    memory := memOperandA }

/-- A pool holding exactly the loaded survivor. -/
def memPool : AssemblyRegisterPool :=
  { currentRegisterPool := [loadedMemHandle], counter := 2 }

/-- A handle holding the compile-time-known integer immediate 5. -/
def immediateHandle : AssemblyRegister :=
  AssemblyRegister.setImmediateValue { debugId := 4, type := intType, scope := 0 } 5

/-- The handle produced by resolving sym1 at scope 0 in the empty pool. -/
def resolvedHandle : AssemblyRegister :=
  { debugId := 0, type := intType, scope := 0, id := some sym1 }

/-- Resolve two global symbols, materialize both, then dirty the handle
created second before the handle created first. -/
def twoGlobalWritesOps : List PoolOp :=
  [PoolOp.resolveOp 0 sym1, PoolOp.resolveOp 0 sym2,
   PoolOp.materializeOp 0 false, PoolOp.materializeOp 1 false,
   PoolOp.writeOp 1, PoolOp.writeOp 0]

end Snex

namespace Snex

lemma getRegisterForWriteOp_snd (h : AssemblyRegister) (w : World) :
    (h.getRegisterForWriteOp w).2 =
      (if h.isPureGlobalWriteTarget w then
        Except.error "cannot write to global variables"
      else Except.ok h.reg) := by
  unfold AssemblyRegister.getRegisterForWriteOp AssemblyRegister.isPureGlobalWriteTarget
  cases hid : h.id with
  | none => simp
  | some sym =>
    by_cases hA : (!h.isIter &&
        (w.rootClassScope ((w.scopeForSymbol h.scope sym.uid).getD h.scope) ==
          (w.scopeForSymbol h.scope sym.uid).getD h.scope || sym.isReference)) = true
    · by_cases hM : h.memoryLocation.isSome = true <;> simp [hA, hM]
    · by_cases hG : (w.scopeType ((w.scopeForSymbol h.scope sym.uid).getD h.scope) ==
          ScopeType.Global) = true <;> simp [hA, hG]

/-- Claim C3: a write to a handle whose bound symbol resolves purely to
global scope without the root-class or reference register context is
rejected with the user-facing error value (the thrown juce String) rather
than a fatal assertion, and a write to any handle not in that situation
succeeds and returns the valid register held by the handle. -/
theorem write_rejects_only_pure_global_targets (h : AssemblyRegister) (w : World)
    (hreg : h.reg.isSome = true) :
    (h.isPureGlobalWriteTarget w = true →
      (h.getRegisterForWriteOp w).2 =
        Except.error "cannot write to global variables") ∧
    (h.isPureGlobalWriteTarget w = false →
      ∃ r, (h.getRegisterForWriteOp w).2 = Except.ok (some r)) := by
  obtain ⟨r0, hr0⟩ := Option.isSome_iff_exists.mp hreg
  constructor
  · intro hp
    rw [getRegisterForWriteOp_snd, if_pos hp]
  · intro hp
    refine ⟨r0, ?_⟩
    rw [getRegisterForWriteOp_snd, if_neg (by simp [hp]), hr0]

/-- Witness for claim C3 at a concrete pure-global handle. -/
theorem write_rejects_only_pure_global_targets_witness :
    (pureGlobalHandle.getRegisterForWriteOp globalWorld).2 =
      Except.error "cannot write to global variables" :=
  (write_rejects_only_pure_global_targets pureGlobalHandle globalWorld
    (by decide)).1 (by decide)

/-- Claim C10: rebinding the memory operand through setCustomMemoryLocation
unconditionally clears the dirty flag, discards the assigned register, sets
state LoadedMemoryLocation, installs the new operand as custom memory, and
thereby drops the handle from the dirty-global collection in every world,
silently discarding a pending write-back. -/
theorem setCustomMemoryLocation_drops_pending_writeback (h : AssemblyRegister)
    (m : X86Mem) (g : Bool) (w : World) :
    (h.setCustomMemoryLocation m g).dirty = false ∧
    (h.setCustomMemoryLocation m g).reg = none ∧
    (h.setCustomMemoryLocation m g).state = State.LoadedMemoryLocation ∧
    (h.setCustomMemoryLocation m g).hasCustomMem = true ∧
    (h.setCustomMemoryLocation m g).memory = m ∧
    (h.setCustomMemoryLocation m g).isDirtyGlobalMemory w = false :=
  ⟨rfl, rfl, rfl, rfl, rfl, rfl⟩

/-- Claim C8: materialization is idempotent without a forced reload; with a
valid register present, loadMemoryIntoRegister returns without touching the
emitter (no register request, no load) and without changing the handle. -/
theorem loadMemoryIntoRegister_noop_when_registered (h : AssemblyRegister)
    (w : World) (cc : Emitter) (hreg : h.reg.isSome = true) :
    h.loadMemoryIntoRegister w cc false = (cc, h) := by
  unfold AssemblyRegister.loadMemoryIntoRegister
  simp [hreg]

/-- Witness for claim C8 at a concrete register-resident handle. -/
theorem loadMemoryIntoRegister_noop_when_registered_witness :
    AssemblyRegister.loadMemoryIntoRegister exampleGlobalHandle exampleWorld {} false =
      ({}, exampleGlobalHandle) :=
  loadMemoryIntoRegister_noop_when_registered exampleGlobalHandle exampleWorld {}
    (by decide)

/-- Counterexample to claim C6: a handle holding the compile-time-known
integer immediate 5 is put into state LoadedMemoryLocation by
createMemoryLocation, the very transition loadMemoryIntoRegister runs on
first materialization. -/
theorem immediate_reaches_loaded_memory_state :
    (immediateHandle.createMemoryLocation exampleWorld {}).2.state =
      State.LoadedMemoryLocation := by
  decide

end Snex

namespace Snex

lemma find?_append_none {α : Type} (p : α → Bool) (l1 l2 : List α)
    (h : l1.find? p = none) : (l1 ++ l2).find? p = l2.find? p := by
  induction l1 with
  | nil => simp
  | cons a t ih =>
    cases hpa : p a
    · rw [List.find?_cons_of_neg _ (by simp [hpa])] at h
      rw [List.cons_append, List.find?_cons_of_neg _ (by simp [hpa])]
      exact ih h
    · rw [List.find?_cons_of_pos _ hpa] at h
      cases h

lemma find?_map_congr {α : Type} (g : α → α) (p : α → Bool) (l : List α)
    (hp : ∀ x ∈ l, p (g x) = p x) : (l.map g).find? p = (l.find? p).map g := by
  induction l with
  | nil => rfl
  | cons a t ih =>
    have ha := hp a (by simp)
    cases hpa : p a
    · rw [List.map_cons, List.find?_cons_of_neg _ (by simp [ha, hpa]),
        List.find?_cons_of_neg _ (by simp [hpa])]
      exact ih (fun x hx => hp x (by simp [hx]))
    · rw [List.map_cons, List.find?_cons_of_pos _ (by simp [ha, hpa]),
        List.find?_cons_of_pos _ hpa]
      rfl

/-- Claim C2: resolving the same scope and symbol twice with no intervening
change returns the identical handle and leaves the pool identical, and when
no pool member matches, the fresh handle is bound to the resolved declaring
scope of the symbol and appended to the pool. -/
theorem resolve_idempotent_and_binds_declaring_scope (w : World)
    (ps : AssemblyRegisterPool) (scope : Nat) (s : Symbol) (d : Nat)
    (hres : w.scopeForSymbol scope s.uid = some d) :
    (((ps.getRegisterForVariable w scope s).1.getRegisterForVariable w scope s).2 =
      (ps.getRegisterForVariable w scope s).2) ∧
    (((ps.getRegisterForVariable w scope s).1.getRegisterForVariable w scope s).1 =
      (ps.getRegisterForVariable w scope s).1) ∧
    (ps.currentRegisterPool.find?
        (fun r => r.matchesScopeAndSymbol w scope s) = none →
      ((ps.getRegisterForVariable w scope s).2.scope = d ∧
       (ps.getRegisterForVariable w scope s).2.id = some s ∧
       (ps.getRegisterForVariable w scope s).1.currentRegisterPool =
         ps.currentRegisterPool ++ [(ps.getRegisterForVariable w scope s).2])) := by
  cases hf : ps.currentRegisterPool.find?
      (fun r => r.matchesScopeAndSymbol w scope s) with
  | some r =>
    have hfirst : ps.getRegisterForVariable w scope s = (ps, r) := by
      unfold AssemblyRegisterPool.getRegisterForVariable
      rw [hf]
    refine ⟨by simp [hfirst], by simp [hfirst], fun hnone => ?_⟩
    simp at hnone
  | none =>
    have hfirst : ps.getRegisterForVariable w scope s =
        ({ currentRegisterPool := ps.currentRegisterPool ++
            [AssemblyRegister.setReference
              { debugId := ps.counter, type := s.typeInfo, scope := scope } w scope s],
           counter := ps.counter + 1 },
          AssemblyRegister.setReference
            { debugId := ps.counter, type := s.typeInfo, scope := scope } w scope s) := by
      unfold AssemblyRegisterPool.getRegisterForVariable
      rw [hf]
    have hmatch : AssemblyRegister.matchesScopeAndSymbol
        (AssemblyRegister.setReference
          { debugId := ps.counter, type := s.typeInfo, scope := scope } w scope s)
        w scope s = true := by
      simp [AssemblyRegister.matchesScopeAndSymbol, AssemblyRegister.setReference,
        AssemblyRegister.symbolMatches, hres]
    have hfind2 : (ps.currentRegisterPool ++
        [AssemblyRegister.setReference
          { debugId := ps.counter, type := s.typeInfo, scope := scope } w scope s]).find?
          (fun r => r.matchesScopeAndSymbol w scope s) =
        some (AssemblyRegister.setReference
          { debugId := ps.counter, type := s.typeInfo, scope := scope } w scope s) := by
      rw [find?_append_none _ _ _ hf]
      exact List.find?_cons_of_pos _ hmatch
    have hsecond : (ps.getRegisterForVariable w scope s).1.getRegisterForVariable
        w scope s = ((ps.getRegisterForVariable w scope s).1,
          (ps.getRegisterForVariable w scope s).2) := by
      rw [hfirst]
      unfold AssemblyRegisterPool.getRegisterForVariable
      rw [hfind2]
    refine ⟨by rw [hsecond], by rw [hsecond], fun _ => ?_⟩
    rw [hfirst]
    refine ⟨?_, rfl, rfl⟩
    simp [AssemblyRegister.setReference, hres]

/-- Witness for claim C2: resolving sym1 twice from the empty pool returns
the identical handle. -/
theorem resolve_idempotent_witness :
    ((({} : AssemblyRegisterPool).getRegisterForVariable exampleWorld 0 sym1).1.getRegisterForVariable
        exampleWorld 0 sym1).2 =
      (({} : AssemblyRegisterPool).getRegisterForVariable exampleWorld 0 sym1).2 :=
  (resolve_idempotent_and_binds_declaring_scope exampleWorld {} 0 sym1 0 rfl).1

end Snex

namespace Snex

lemma matchesMemoryLocation_iff (r other : AssemblyRegister) :
    r.matchesMemoryLocation other = true ↔
      (other.getTypeInfo = r.getTypeInfo ∧ r.hasCustomMemoryLocation = true ∧
       other.hasCustomMemoryLocation = true ∧
       other.getMemoryLocationForReference = r.memory) := by
  show (if (other.getTypeInfo == r.getTypeInfo &&
      (r.hasCustomMemoryLocation && other.hasCustomMemoryLocation)) then
        other.getMemoryLocationForReference == r.memory
      else false) = true ↔ _
  constructor
  · intro hm
    split at hm
    next hcond =>
      simp only [Bool.and_eq_true, beq_iff_eq] at hcond
      exact ⟨hcond.1, hcond.2.1, hcond.2.2, by simpa [beq_iff_eq] using hm⟩
    next => simp at hm
  · rintro ⟨h1, h2, h3, h4⟩
    rw [if_pos (by simp [h1, h2, h3]), h4]
    simp

lemma eq_of_debugId_eq_of_nodup (l : List AssemblyRegister)
    (hnd : (l.map AssemblyRegister.debugId).Nodup)
    (a b : AssemblyRegister) (ha : a ∈ l) (hb : b ∈ l)
    (hid : a.debugId = b.debugId) : a = b := by
  induction l with
  | nil => cases ha
  | cons x t ih =>
    rw [List.map_cons, List.nodup_cons] at hnd
    rcases List.mem_cons.mp ha with ha1 | ha1 <;> rcases List.mem_cons.mp hb with hb1 | hb1
    · rw [ha1, hb1]
    · exfalso
      apply hnd.1
      rw [ha1] at hid
      rw [hid]
      exact List.mem_map_of_mem _ hb1
    · exfalso
      apply hnd.1
      rw [hb1] at hid
      rw [← hid]
      exact List.mem_map_of_mem _ ha1
    · exact ih hnd.2 ha1 hb1

lemma getRegisterWithMemory_of_find (ps : AssemblyRegisterPool)
    (other r0 : AssemblyRegister)
    (hcm : other.hasCustomMemoryLocation = true)
    (hf : ps.currentRegisterPool.find? (fun r =>
        r.isMemoryLocation && r.debugId != other.debugId &&
          r.matchesMemoryLocation other) = some r0) :
    ps.getRegisterWithMemory other =
      ({ ps with currentRegisterPool := (ps.currentRegisterPool.map
          (fun q => if q.debugId == r0.debugId then
            { r0 with numMemoryReferences := r0.numMemoryReferences + 1 } else q)) },
        { r0 with numMemoryReferences := r0.numMemoryReferences + 1 }) := by
  unfold AssemblyRegisterPool.getRegisterWithMemory
  simp [hcm, hf]

/-- Claim C5: getRegisterWithMemory coalesces only when both handles carry
an explicit custom memory location of identical declared type and equal
resolved operand value, never consulting Symbol identity; on a match it
returns the already-loaded pool survivor with its alias-reference count
incremented instead of creating a new handle, and called twice it returns
the same survivor both times. -/
theorem canonical_memory_handle_coalesces (ps : AssemblyRegisterPool)
    (other : AssemblyRegister)
    (hnd : (ps.currentRegisterPool.map AssemblyRegister.debugId).Nodup) :
    (other.hasCustomMemoryLocation = false →
      ps.getRegisterWithMemory other = (ps, other)) ∧
    ((ps.getRegisterWithMemory other).2.debugId ≠ other.debugId →
      ∃ r0, r0 ∈ ps.currentRegisterPool ∧
        r0.state = State.LoadedMemoryLocation ∧
        r0.hasCustomMemoryLocation = true ∧
        other.hasCustomMemoryLocation = true ∧
        r0.getTypeInfo = other.getTypeInfo ∧
        r0.memory = other.getMemoryLocationForReference ∧
        (ps.getRegisterWithMemory other).2 =
          { r0 with numMemoryReferences := r0.numMemoryReferences + 1 } ∧
        (ps.getRegisterWithMemory other).1.currentRegisterPool.length =
          ps.currentRegisterPool.length) ∧
    (∀ (r : AssemblyRegister) (a b : Option Symbol),
      AssemblyRegister.matchesMemoryLocation { r with id := a } { other with id := b } =
        AssemblyRegister.matchesMemoryLocation r other) ∧
    ((ps.getRegisterWithMemory other).1.getRegisterWithMemory other).2.debugId =
      (ps.getRegisterWithMemory other).2.debugId := by
  by_cases hcm : other.hasCustomMemoryLocation = true
  case neg =>
    have hb : other.hasCustomMemoryLocation = false := by
      cases hx : other.hasCustomMemoryLocation
      · rfl
      · exact absurd hx hcm
    have hres : ps.getRegisterWithMemory other = (ps, other) := by
      unfold AssemblyRegisterPool.getRegisterWithMemory
      simp [hb]
    exact ⟨fun _ => hres,
      fun hne => absurd (by simp [hres]) hne,
      fun r a b => rfl,
      by simp [hres]⟩
  case pos =>
    cases hf : ps.currentRegisterPool.find? (fun r =>
        r.isMemoryLocation && r.debugId != other.debugId &&
          r.matchesMemoryLocation other) with
    | none =>
      have hres : ps.getRegisterWithMemory other = (ps, other) := by
        unfold AssemblyRegisterPool.getRegisterWithMemory
        simp [hcm, hf]
      exact ⟨fun hb => by simp [hb] at hcm,
        fun hne => absurd (by simp [hres]) hne,
        fun r a b => rfl,
        by simp [hres]⟩
    | some r0 =>
      have hpred := List.find?_some hf
      have hmem := List.mem_of_find?_eq_some hf
      simp only [Bool.and_eq_true] at hpred
      obtain ⟨⟨hloaded, hneq⟩, hmatch⟩ := hpred
      have hmatch2 := (matchesMemoryLocation_iff r0 other).mp hmatch
      have hres := getRegisterWithMemory_of_find ps other r0 hcm hf
      have hpinv : ∀ q ∈ ps.currentRegisterPool,
          (fun r => r.isMemoryLocation && r.debugId != other.debugId &&
            r.matchesMemoryLocation other)
            ((fun q => if q.debugId == r0.debugId then
              { r0 with numMemoryReferences := r0.numMemoryReferences + 1 } else q) q) =
          ((fun r => r.isMemoryLocation && r.debugId != other.debugId &&
            r.matchesMemoryLocation other) q) := by
        intro q hq
        by_cases hqi : (q.debugId == r0.debugId) = true
        · have hq0 : q = r0 :=
            eq_of_debugId_eq_of_nodup _ hnd q r0 hq hmem
              (by simpa [beq_iff_eq] using hqi)
          subst hq0
          simp only [hqi, if_true]
          rfl
        · simp only [Bool.not_eq_true] at hqi
          simp only [hqi]
          simp
      have hfind2 : ((ps.getRegisterWithMemory other).1.currentRegisterPool).find?
          (fun r => r.isMemoryLocation && r.debugId != other.debugId &&
            r.matchesMemoryLocation other) =
          some { r0 with numMemoryReferences := r0.numMemoryReferences + 1 } := by
        rw [hres]
        show ((ps.currentRegisterPool.map _).find? _) = _
        rw [find?_map_congr _ _ _ hpinv, hf]
        simp
      have hres2 := getRegisterWithMemory_of_find
        (ps.getRegisterWithMemory other).1 other
        { r0 with numMemoryReferences := r0.numMemoryReferences + 1 } hcm hfind2
      refine ⟨fun hb => by simp [hb] at hcm, fun _ => ?_, fun r a b => rfl, ?_⟩
      · refine ⟨r0, hmem, ?_, hmatch2.2.1, hmatch2.2.2.1, hmatch2.1.symm,
          hmatch2.2.2.2.symm, by rw [hres], by simp [hres]⟩
        simpa [AssemblyRegister.isMemoryLocation] using hloaded
      · rw [hres2, hres]

/-- Witness for claim C5: a concrete coalescing that returns the loaded pool
survivor with its alias count incremented. -/
theorem canonical_memory_handle_coalesces_witness :
    ∃ r0, r0 ∈ memPool.currentRegisterPool ∧
      r0.state = State.LoadedMemoryLocation ∧
      r0.hasCustomMemoryLocation = true ∧
      aliasHandle.hasCustomMemoryLocation = true ∧
      r0.getTypeInfo = aliasHandle.getTypeInfo ∧
      r0.memory = aliasHandle.getMemoryLocationForReference ∧
      (memPool.getRegisterWithMemory aliasHandle).2 =
        { r0 with numMemoryReferences := r0.numMemoryReferences + 1 } ∧
      (memPool.getRegisterWithMemory aliasHandle).1.currentRegisterPool.length =
        memPool.currentRegisterPool.length :=
  (canonical_memory_handle_coalesces memPool aliasHandle (by decide)).2.1 (by decide)

end Snex

namespace Snex

lemma countById_cons (a : AssemblyRegister) (l : List AssemblyRegister) (d : Nat) :
    countById (a :: l) d = (if a.debugId == d then 1 else 0) + countById l d := by
  unfold countById
  rw [List.filter_cons]
  cases h : a.debugId == d
  · simp [h]
  · simp [h, Nat.add_comm]

lemma countById_eq_zero (l : List AssemblyRegister) (d : Nat)
    (h : ∀ r ∈ l, r.debugId ≠ d) : countById l d = 0 := by
  induction l with
  | nil => rfl
  | cons a t ih =>
    rw [countById_cons, if_neg (by simp [h a (by simp)]),
      ih (fun r hr => h r (by simp [hr]))]

lemma countById_map_preserving (l : List AssemblyRegister)
    (g : AssemblyRegister → AssemblyRegister) (d : Nat)
    (hg : ∀ r ∈ l, (g r).debugId = r.debugId) :
    countById (l.map g) d = countById l d := by
  induction l with
  | nil => rfl
  | cons a t ih =>
    rw [List.map_cons, countById_cons, countById_cons, hg a (by simp),
      ih (fun r hr => hg r (by simp [hr]))]

lemma countById_filter_all (l : List AssemblyRegister)
    (p : AssemblyRegister → Bool) (d : Nat)
    (hall : ∀ r ∈ l, r.debugId = d → p r = true) :
    countById (l.filter p) d = countById l d := by
  induction l with
  | nil => rfl
  | cons a t ih =>
    rw [List.filter_cons]
    have iht := ih (fun r hr hd => hall r (by simp [hr]) hd)
    cases hpa : p a
    · have had : a.debugId ≠ d := by
        intro hd
        rw [hall a (by simp) hd] at hpa
        cases hpa
      rw [if_neg (by simp), iht, countById_cons, if_neg (by simp [had])]
      omega
    · rw [if_pos rfl, countById_cons, countById_cons, iht]

lemma countById_filter_none (l : List AssemblyRegister)
    (p : AssemblyRegister → Bool) (d : Nat)
    (hnone : ∀ r ∈ l, r.debugId = d → p r = false) :
    countById (l.filter p) d = 0 := by
  induction l with
  | nil => rfl
  | cons a t ih =>
    rw [List.filter_cons]
    have iht := ih (fun r hr hd => hnone r (by simp [hr]) hd)
    cases hpa : p a
    · rw [if_neg (by simp), iht]
    · have had : a.debugId ≠ d := by
        intro hd
        rw [hnone a (by simp) hd] at hpa
        cases hpa
      rw [if_pos rfl, countById_cons, if_neg (by simp [had]), iht]

lemma countById_eq_one_of_mem (l : List AssemblyRegister) (h : AssemblyRegister)
    (hmem : h ∈ l) (hnd : (l.map AssemblyRegister.debugId).Nodup) :
    countById l h.debugId = 1 := by
  induction l with
  | nil => cases hmem
  | cons a t ih =>
    rw [List.map_cons, List.nodup_cons] at hnd
    rcases List.mem_cons.mp hmem with hax | hmt
    · subst hax
      have hz : countById t h.debugId = 0 := by
        apply countById_eq_zero
        intro r hr hrd
        exact hnd.1 (by rw [← hrd]; exact List.mem_map_of_mem _ hr)
      rw [countById_cons, if_pos (by simp), hz]
    · have had : a.debugId ≠ h.debugId := by
        intro hd
        exact hnd.1 (by rw [hd]; exact List.mem_map_of_mem _ hmt)
      rw [countById_cons, if_neg (by simp [had]), ih hmt hnd.2]

lemma mem_updateById_const (ps : AssemblyRegisterPool) (d : Nat)
    (h1 r : AssemblyRegister)
    (hr : r ∈ (ps.updateById d (fun _ => h1)).currentRegisterPool)
    (hd : r.debugId = d) : r = h1 := by
  unfold AssemblyRegisterPool.updateById at hr
  simp only [List.mem_map] at hr
  obtain ⟨r0, _, heq⟩ := hr
  by_cases hb : (r0.debugId == d) = true
  · rw [if_pos hb] at heq
    exact heq.symm
  · rw [if_neg hb] at heq
    rw [← heq] at hd
    exact absurd hd (by simpa [beq_iff_eq] using hb)

lemma getRegisterForWriteOp_fst_global (h : AssemblyRegister) (w : World)
    (hg : h.isGlobalMemory w = true) :
    (h.getRegisterForWriteOp w).1 =
      { h with dirty := true, state := State.DirtyGlobalRegister } := by
  unfold AssemblyRegister.getRegisterForWriteOp
  cases hid : h.id with
  | none => simp [hg]
  | some sym =>
    simp only [hg, if_true]
    cases hit : h.isIter <;>
      simp only [hit, Bool.false_eq_true, if_false, if_true] <;>
      split <;> (try split) <;> rfl

/-- Claim C1: for a handle bound to global storage, a write sets the dirty
flag and moves the handle to DirtyGlobalRegister; while dirty it appears
exactly once in getListOfAllDirtyGlobals; after setUndirty the flag is
cleared, the state is ActiveRegister and the handle no longer appears in
that list; and a read (a const method) changes nothing, in particular never
sets the dirty flag. -/
theorem global_write_dirty_flush_cycle (w : World) (ps : AssemblyRegisterPool)
    (h : AssemblyRegister)
    (hg : h.isGlobalMemory w = true)
    (hmem : h ∈ ps.currentRegisterPool)
    (hnd : (ps.currentRegisterPool.map AssemblyRegister.debugId).Nodup) :
    ((h.getRegisterForWriteOp w).1.dirty = true ∧
     (h.getRegisterForWriteOp w).1.state = State.DirtyGlobalRegister) ∧
    countById ((ps.updateById h.debugId
        (fun _ => (h.getRegisterForWriteOp w).1)).getListOfAllDirtyGlobals w)
      h.debugId = 1 ∧
    ((h.getRegisterForWriteOp w).1.setUndirty.dirty = false ∧
     (h.getRegisterForWriteOp w).1.setUndirty.state = State.ActiveRegister) ∧
    countById ((ps.updateById h.debugId
        (fun _ => (h.getRegisterForWriteOp w).1.setUndirty)).getListOfAllDirtyGlobals w)
      h.debugId = 0 ∧
    h.getRegisterForReadOp.1 = h := by
  have hw := getRegisterForWriteOp_fst_global h w hg
  have hdirty1 : AssemblyRegister.isDirtyGlobalMemory
      { h with dirty := true, state := State.DirtyGlobalRegister } w = true := by
    show (true && AssemblyRegister.isGlobalMemory
      { h with dirty := true, state := State.DirtyGlobalRegister } w) = true
    have : AssemblyRegister.isGlobalMemory
        { h with dirty := true, state := State.DirtyGlobalRegister } w =
        h.isGlobalMemory w := rfl
    rw [this, hg]
    rfl
  have hu : AssemblyRegister.setUndirty
      { h with dirty := true, state := State.DirtyGlobalRegister } =
      { h with dirty := false, state := State.ActiveRegister } := by
    unfold AssemblyRegister.setUndirty
    rw [if_pos]
    rfl
  have hdirty2 : AssemblyRegister.isDirtyGlobalMemory
      { h with dirty := false, state := State.ActiveRegister } w = false := rfl
  refine ⟨by rw [hw]; exact ⟨rfl, rfl⟩, ?_, by rw [hw, hu]; exact ⟨rfl, rfl⟩, ?_, rfl⟩
  · rw [hw]
    unfold AssemblyRegisterPool.getListOfAllDirtyGlobals
    rw [countById_filter_all _ _ _ ?hall]
    case hall =>
      intro r hr hrd
      rw [mem_updateById_const ps h.debugId _ r hr hrd, hdirty1]
    show countById ((ps.updateById h.debugId _).currentRegisterPool) h.debugId = 1
    unfold AssemblyRegisterPool.updateById
    rw [countById_map_preserving _ _ _ ?hpres]
    case hpres =>
      intro r _
      by_cases hb : (r.debugId == h.debugId) = true
      · rw [if_pos hb]
        exact (beq_iff_eq.mp hb).symm
      · rw [if_neg hb]
    exact countById_eq_one_of_mem _ h hmem hnd
  · rw [hw, hu]
    unfold AssemblyRegisterPool.getListOfAllDirtyGlobals
    apply countById_filter_none
    intro r hr hrd
    rw [mem_updateById_const ps h.debugId _ r hr hrd, hdirty2]

/-- Witness for claim C1: the example global handle appears exactly once in
the dirty-global list after a write and disappears after the flush. -/
theorem global_write_dirty_flush_cycle_witness :
    countById ((examplePool.updateById exampleGlobalHandle.debugId
        (fun _ => (exampleGlobalHandle.getRegisterForWriteOp exampleWorld).1)).getListOfAllDirtyGlobals
        exampleWorld) exampleGlobalHandle.debugId = 1 ∧
    countById ((examplePool.updateById exampleGlobalHandle.debugId
        (fun _ => (exampleGlobalHandle.getRegisterForWriteOp
          exampleWorld).1.setUndirty)).getListOfAllDirtyGlobals
        exampleWorld) exampleGlobalHandle.debugId = 0 :=
  ⟨(global_write_dirty_flush_cycle exampleWorld examplePool exampleGlobalHandle
      (by decide) (by decide) (by decide)).2.1,
   (global_write_dirty_flush_cycle exampleWorld examplePool exampleGlobalHandle
      (by decide) (by decide) (by decide)).2.2.2.1⟩

end Snex

namespace Snex

/-- Counterexample to claim C4: two global handles are dirtied in the
opposite of their creation order, and getListOfAllDirtyGlobals reports them
in pool (creation) order [0, 1], not in first-dirtied order [1, 0]. -/
theorem dirty_globals_not_in_first_dirtied_order :
    dirtyIds exampleWorld (runOps exampleWorld {} twoGlobalWritesOps) = [0, 1] ∧
    firstDirtiedOrder exampleWorld twoGlobalWritesOps = [1, 0] ∧
    dirtyIds exampleWorld (runOps exampleWorld {} twoGlobalWritesOps) ≠
      firstDirtiedOrder exampleWorld twoGlobalWritesOps :=
  ⟨by decide, by decide, by decide⟩

/-- Claim C4 amended: getListOfAllDirtyGlobals returns exactly the currently
dirty global handles, each exactly once, in pool (handle creation) order
rather than in first-dirtied order. -/
theorem dirty_globals_listed_once_in_pool_order (w : World)
    (ps : AssemblyRegisterPool)
    (hnd : (ps.currentRegisterPool.map AssemblyRegister.debugId).Nodup) :
    ((ps.getListOfAllDirtyGlobals w).map AssemblyRegister.debugId).Sublist
      (ps.currentRegisterPool.map AssemblyRegister.debugId) ∧
    ((ps.getListOfAllDirtyGlobals w).map AssemblyRegister.debugId).Nodup ∧
    (∀ r, r ∈ ps.getListOfAllDirtyGlobals w ↔
      (r ∈ ps.currentRegisterPool ∧ r.isDirtyGlobalMemory w = true)) := by
  have hsub : ((ps.getListOfAllDirtyGlobals w).map AssemblyRegister.debugId).Sublist
      (ps.currentRegisterPool.map AssemblyRegister.debugId) :=
    (List.filter_sublist _).map _
  refine ⟨hsub, List.Nodup.sublist hsub hnd, fun r => ?_⟩
  simp [AssemblyRegisterPool.getListOfAllDirtyGlobals, List.mem_filter]

/-- Witness for claim C4 (amended form) on the example pool. -/
theorem dirty_globals_listed_once_witness :
    ((examplePool.getListOfAllDirtyGlobals exampleWorld).map
        AssemblyRegister.debugId).Sublist
      (examplePool.currentRegisterPool.map AssemblyRegister.debugId) :=
  (dirty_globals_listed_once_in_pool_order exampleWorld examplePool (by decide)).1

/-- Claim C6 amended: a handle holding a compile-time-known integer
immediate (integer register type, no custom memory, no data pointer, not a
global variable register, unmaterialized, no register yet) is materialized
without any emitter memory load: the only emitted instruction is an
immediate move of the stored value, and the handle ends as an active
register.  However such a handle does pass through state
LoadedMemoryLocation: createMemoryLocation assigns that state (attaching no
memory operand and emitting nothing) before the register is created. -/
theorem immediate_materializes_as_immediate_operand (h : AssemblyRegister)
    (w : World) (cc : Emitter)
    (hint : h.getType = TypesID.Integer)
    (hcm : h.hasCustomMem = false)
    (hst : h.state = State.UnloadedMemoryLocation)
    (hrg : h.reg = none)
    (hml : h.memoryLocation = none)
    (hng : h.isGlobalVariableRegister w = false) :
    (h.createMemoryLocation w cc).2.state = State.LoadedMemoryLocation ∧
    (h.createMemoryLocation w cc).2.hasCustomMem = false ∧
    (h.createMemoryLocation w cc).1 = cc ∧
    (h.loadMemoryIntoRegister w cc false).2.state = State.ActiveRegister ∧
    (h.loadMemoryIntoRegister w cc false).1.trace =
      cc.trace ++ [EmitOp.movImm cc.nextVReg h.immediateIntValue] ∧
    (∀ e ∈ (h.loadMemoryIntoRegister w cc false).1.trace,
      e ∈ cc.trace ∨ e.isMemoryLoad = false) := by
  have hint2 : h.type.regType = TypesID.Integer := hint
  have hcml : h.createMemoryLocation w cc =
      (cc, { h with immediateIntValue := h.immediateIntValue,
                    isZeroValue := h.immediateIntValue == 0,
                    state := State.LoadedMemoryLocation }) := by
    unfold AssemblyRegister.createMemoryLocation
    rw [hint, hml]
    simp [hng]
  have hload : h.loadMemoryIntoRegister w cc false =
      ({ cc with nextVReg := cc.nextVReg + 1,
                 allocs := cc.allocs ++ [(cc.nextVReg, RegClass.Gpd)],
                 trace := cc.trace ++ [EmitOp.movImm cc.nextVReg h.immediateIntValue] },
        { h with immediateIntValue := h.immediateIntValue,
                 isZeroValue := h.immediateIntValue == 0,
                 reg := some cc.nextVReg,
                 state := State.ActiveRegister }) := by
    unfold AssemblyRegister.loadMemoryIntoRegister
    rw [hrg, hst]
    rw [hcml]
    unfold AssemblyRegister.createRegister
    simp [AssemblyRegister.getType, hint2, hcm, Emitter.newVirtReg, Emitter.emit, hrg]
  refine ⟨by rw [hcml], by rw [hcml]; exact hcm, by rw [hcml], by rw [hload],
    by rw [hload], ?_⟩
  rw [hload]
  intro e he
  rcases List.mem_append.mp he with hl | hr
  · exact Or.inl hl
  · rw [List.mem_singleton.mp hr]
    exact Or.inr rfl

/-- Witness for claim C6 (amended form): the concrete immediate handle ends
as an active register after materialization. -/
theorem immediate_materializes_witness :
    (immediateHandle.loadMemoryIntoRegister exampleWorld {} false).2.state =
      State.ActiveRegister :=
  (immediate_materializes_as_immediate_operand immediateHandle exampleWorld {}
    (by decide) (by decide) (by decide) (by decide) (by decide) (by decide)).2.2.2.1

lemma mem_removeFirstById (l : List AssemblyRegister) (d : Nat)
    (r : AssemblyRegister)
    (hr : r ∈ AssemblyRegisterPool.removeFirstById l d) : r ∈ l := by
  induction l with
  | nil => cases hr
  | cons x t ih =>
    unfold AssemblyRegisterPool.removeFirstById at hr
    by_cases hb : (x.debugId == d) = true
    · rw [if_pos hb] at hr
      exact List.mem_cons_of_mem _ hr
    · rw [if_neg hb] at hr
      rcases List.mem_cons.mp hr with hx | ht
      · rw [hx]; exact List.mem_cons_self _ _
      · exact List.mem_cons_of_mem _ (ih ht)

lemma removeFirstById_no_id (l : List AssemblyRegister) (d : Nat)
    (hnd : (l.map AssemblyRegister.debugId).Nodup) :
    ∀ r ∈ AssemblyRegisterPool.removeFirstById l d, r.debugId ≠ d := by
  induction l with
  | nil => intro r hr; cases hr
  | cons x t ih =>
    rw [List.map_cons, List.nodup_cons] at hnd
    intro r hr
    unfold AssemblyRegisterPool.removeFirstById at hr
    by_cases hb : (x.debugId == d) = true
    · rw [if_pos hb] at hr
      intro hrd
      apply hnd.1
      rw [(beq_iff_eq.mp hb), ← hrd]
      exact List.mem_map_of_mem _ hr
    · rw [if_neg hb] at hr
      rcases List.mem_cons.mp hr with hx | ht
      · rw [hx]
        simpa [beq_iff_eq] using hb
      · exact ih hnd.2 r ht

/-- Claim C7: removeIfUnreferenced retires a handle exactly when the
observed juce reference count is 2 (the pool RefPtr plus the argument, the
allocator being the sole holder): the handle leaves the pool and later
resolve calls return a different handle for every scope and symbol; with
any other count (an external holder remains) the pool is unchanged. -/
theorem release_retires_exactly_at_floor (w : World) (ps : AssemblyRegisterPool)
    (h : AssemblyRegister) (rc : Nat)
    (hmem : h ∈ ps.currentRegisterPool)
    (hnd : (ps.currentRegisterPool.map AssemblyRegister.debugId).Nodup)
    (hlt : ∀ r ∈ ps.currentRegisterPool, r.debugId < ps.counter) :
    (rc = 2 →
      (∀ r ∈ (ps.removeIfUnreferenced h rc).currentRegisterPool,
        r.debugId ≠ h.debugId) ∧
      (∀ scope s, ((ps.removeIfUnreferenced h rc).getRegisterForVariable w
          scope s).2.debugId ≠ h.debugId)) ∧
    (rc ≠ 2 → ps.removeIfUnreferenced h rc = ps) := by
  constructor
  · intro hrc
    subst hrc
    have hrem : ps.removeIfUnreferenced h 2 =
        { ps with currentRegisterPool :=
            AssemblyRegisterPool.removeFirstById ps.currentRegisterPool h.debugId } := by
      unfold AssemblyRegisterPool.removeIfUnreferenced
      rfl
    have hno : ∀ r ∈ (ps.removeIfUnreferenced h 2).currentRegisterPool,
        r.debugId ≠ h.debugId := by
      rw [hrem]
      exact removeFirstById_no_id _ _ hnd
    refine ⟨hno, ?_⟩
    intro scope s
    cases hf : (ps.removeIfUnreferenced h 2).currentRegisterPool.find?
        (fun r => r.matchesScopeAndSymbol w scope s) with
    | some r =>
      have hres : (ps.removeIfUnreferenced h 2).getRegisterForVariable w scope s =
          (ps.removeIfUnreferenced h 2, r) := by
        unfold AssemblyRegisterPool.getRegisterForVariable
        rw [hf]
      rw [hres]
      exact hno r (List.mem_of_find?_eq_some hf)
    | none =>
      have hres : ((ps.removeIfUnreferenced h 2).getRegisterForVariable w
          scope s).2.debugId = (ps.removeIfUnreferenced h 2).counter := by
        unfold AssemblyRegisterPool.getRegisterForVariable
        rw [hf]
        rfl
      rw [hres, hrem]
      exact (hlt h hmem).ne'
  · intro hrc
    unfold AssemblyRegisterPool.removeIfUnreferenced
    rw [if_neg (by simpa [beq_iff_eq] using hrc)]

/-- Witness for claim C7: after release at the floor count, resolving in the
example pool no longer returns the retired handle. -/
theorem release_retires_witness :
    ((examplePool.removeIfUnreferenced exampleGlobalHandle 2).getRegisterForVariable
        exampleWorld 0 sym1).2.debugId ≠ exampleGlobalHandle.debugId :=
  ((release_retires_exactly_at_floor exampleWorld examplePool exampleGlobalHandle 2
      (by decide) (by decide) (by decide)).1 rfl).2 0 sym1

end Snex

namespace Snex

lemma createMemoryLocation_state (h : AssemblyRegister) (w : World) (cc : Emitter) :
    (h.createMemoryLocation w cc).2.state = State.LoadedMemoryLocation := by
  unfold AssemblyRegister.createMemoryLocation
  split
  · rfl
  · split <;> rfl

lemma setUndirty_state (h : AssemblyRegister) :
    h.setUndirty.state = h.state ∨ h.setUndirty.state = State.ActiveRegister := by
  unfold AssemblyRegister.setUndirty
  split
  · exact Or.inr rfl
  · exact Or.inl rfl

lemma loadMemoryIntoRegister_state (h : AssemblyRegister) (w : World) (cc : Emitter)
    (f : Bool) :
    (h.loadMemoryIntoRegister w cc f).2.state = h.state ∨
    (h.loadMemoryIntoRegister w cc f).2.state = State.LoadedMemoryLocation ∨
    (h.loadMemoryIntoRegister w cc f).2.state = State.ActiveRegister := by
  unfold AssemblyRegister.loadMemoryIntoRegister
  split
  · exact Or.inl rfl
  · generalize hX : (if h.state == State.UnloadedMemoryLocation then
        h.createMemoryLocation w cc else (cc, h)) = p
    have hp : p.2.state = h.state ∨ p.2.state = State.LoadedMemoryLocation := by
      rw [← hX]
      split
      · exact Or.inr (createMemoryLocation_state h w cc)
      · exact Or.inl rfl
    dsimp only
    split
    · rcases hp with hp | hp
      · exact Or.inl hp
      · exact Or.inr (Or.inl hp)
    · exact Or.inr (Or.inr rfl)

lemma getRegisterForWriteOp_state (h : AssemblyRegister) (w : World) :
    (h.getRegisterForWriteOp w).1.state = h.state ∨
    (h.getRegisterForWriteOp w).1.state = State.DirtyGlobalRegister := by
  unfold AssemblyRegister.getRegisterForWriteOp
  cases hgm : h.isGlobalMemory w <;> cases hid : h.id <;> cases hit : h.isIter <;>
    simp [hgm, hid, hit] <;> (try split) <;> (try split) <;> simp

lemma updateById_states (ps : AssemblyRegisterPool) (d : Nat)
    (f : AssemblyRegister → AssemblyRegister)
    (hI : ∀ r ∈ ps.currentRegisterPool, inFourStates r.state = true)
    (hf : ∀ r ∈ ps.currentRegisterPool, inFourStates r.state = true →
      inFourStates (f r).state = true) :
    ∀ r ∈ (ps.updateById d f).currentRegisterPool, inFourStates r.state = true := by
  intro r hr
  unfold AssemblyRegisterPool.updateById at hr
  simp only [List.mem_map] at hr
  obtain ⟨r0, hr0, heq⟩ := hr
  by_cases hb : (r0.debugId == d) = true
  · rw [if_pos hb] at heq
    rw [← heq]
    exact hf r0 hr0 (hI r0 hr0)
  · rw [if_neg hb] at heq
    rw [← heq]
    exact hI r0 hr0

lemma inFourStates_cases (s s2 : State) (h : inFourStates s = true)
    (hc : s2 = s ∨ s2 = State.UnloadedMemoryLocation ∨
      s2 = State.LoadedMemoryLocation ∨ s2 = State.ActiveRegister ∨
      s2 = State.DirtyGlobalRegister) :
    inFourStates s2 = true := by
  rcases hc with h1 | h1 | h1 | h1 | h1 <;> rw [h1]
  · exact h
  · rfl
  · rfl
  · rfl
  · rfl

lemma resolve_pool_states (w : World) (ps : AssemblyRegisterPool)
    (scope : Nat) (s : Symbol)
    (hI : ∀ r ∈ ps.currentRegisterPool, inFourStates r.state = true) :
    ∀ r ∈ (ps.getRegisterForVariable w scope s).1.currentRegisterPool,
      inFourStates r.state = true := by
  intro r hr
  unfold AssemblyRegisterPool.getRegisterForVariable at hr
  cases hf : ps.currentRegisterPool.find?
      (fun r => r.matchesScopeAndSymbol w scope s) with
  | some r0 =>
    rw [hf] at hr
    exact hI r hr
  | none =>
    rw [hf] at hr
    simp [List.mem_append] at hr
    rcases hr with hl | hrr
    · exact hI r hl
    · rw [hrr]
      rfl

lemma step_preserves_states (w : World) (c : Config) (op : PoolOp)
    (hI : ∀ r ∈ c.pool.currentRegisterPool, inFourStates r.state = true) :
    ∀ r ∈ (step w c op).pool.currentRegisterPool, inFourStates r.state = true := by
  cases op with
  | resolveOp scope s =>
    exact resolve_pool_states w c.pool scope s hI
  | materializeOp d force =>
    cases hfind : c.pool.findById d with
    | some r =>
      intro x hx
      simp only [step] at hx
      rw [hfind] at hx
      have hfind2 : c.pool.currentRegisterPool.find?
          (fun q => q.debugId == d) = some r := hfind
      have hr := List.mem_of_find?_eq_some hfind2
      have hstates := loadMemoryIntoRegister_state r w c.cc force
      refine updateById_states c.pool d
        (fun _ => (r.loadMemoryIntoRegister w c.cc force).2) hI ?_ x hx
      intro r0 _ _
      exact inFourStates_cases r.state
        (r.loadMemoryIntoRegister w c.cc force).2.state (hI r hr)
        (by rcases hstates with hs | hs | hs
            · exact Or.inl hs
            · exact Or.inr (Or.inr (Or.inl hs))
            · exact Or.inr (Or.inr (Or.inr (Or.inl hs))))
    | none =>
      intro x hx
      simp only [step] at hx
      rw [hfind] at hx
      exact hI x hx
  | writeOp d =>
    cases hfind : c.pool.findById d with
    | some r =>
      intro x hx
      simp only [step] at hx
      rw [hfind] at hx
      have hfind2 : c.pool.currentRegisterPool.find?
          (fun q => q.debugId == d) = some r := hfind
      have hr := List.mem_of_find?_eq_some hfind2
      have hstates := getRegisterForWriteOp_state r w
      refine updateById_states c.pool d (fun _ => (r.getRegisterForWriteOp w).1)
        hI ?_ x hx
      intro r0 _ _
      exact inFourStates_cases r.state (r.getRegisterForWriteOp w).1.state (hI r hr)
        (by rcases hstates with hs | hs
            · exact Or.inl hs
            · exact Or.inr (Or.inr (Or.inr (Or.inr hs))))
    | none =>
      intro x hx
      simp only [step] at hx
      rw [hfind] at hx
      exact hI x hx
  | releaseOp d rc =>
    cases hfind : c.pool.findById d with
    | some r =>
      intro x hx
      simp only [step] at hx
      rw [hfind] at hx
      dsimp only at hx
      unfold AssemblyRegisterPool.removeIfUnreferenced at hx
      by_cases hrc : (rc == 2) = true
      · rw [if_pos hrc] at hx
        exact hI x (mem_removeFirstById _ _ x hx)
      · rw [if_neg hrc] at hx
        exact hI x hx
    | none =>
      intro x hx
      simp only [step] at hx
      rw [hfind] at hx
      exact hI x hx
  | flushOp d =>
    intro x hx
    simp only [step] at hx
    refine updateById_states c.pool d AssemblyRegister.setUndirty hI ?_ x hx
    intro r0 hr0 hs0
    exact inFourStates_cases r0.state r0.setUndirty.state hs0
      (by rcases setUndirty_state r0 with hs | hs
          · exact Or.inl hs
          · exact Or.inr (Or.inr (Or.inr (Or.inl hs))))
  | setImmOp d v =>
    intro x hx
    simp only [step] at hx
    refine updateById_states c.pool d (fun r => r.setImmediateValue v) hI ?_ x hx
    intro r0 _ _
    rfl
  | setCustomMemOp d m g =>
    intro x hx
    simp only [step] at hx
    refine updateById_states c.pool d (fun r => r.setCustomMemoryLocation m g)
      hI ?_ x hx
    intro r0 _ _
    rfl
  | setDataPointerOp d p g =>
    intro x hx
    simp only [step] at hx
    refine updateById_states c.pool d (fun r => r.setDataPointer p g) hI ?_ x hx
    intro r0 _ _
    rfl

/-- Claim C9: starting from an empty compilation unit, after every sequence
of allocator operations (resolve, materialize, write, release, flush,
immediate binding and memory rebinding) every handle in the pool is in
exactly one of the four defined states (exactly one of the four state
equalities holds, and in particular the handle never sits in the vestigial
ReusableRegister state). -/
theorem every_handle_in_exactly_one_of_four_states (w : World)
    (ops : List PoolOp) :
    ∀ h ∈ (runOps w {} ops).pool.currentRegisterPool,
      inFourStates h.state = true := by
  have main : ∀ (l : List PoolOp) (c : Config),
      (∀ r ∈ c.pool.currentRegisterPool, inFourStates r.state = true) →
      ∀ r ∈ (runOps w c l).pool.currentRegisterPool,
        inFourStates r.state = true := by
    intro l
    induction l with
    | nil => intro c hc; exact hc
    | cons op rest ih =>
      intro c hc
      exact ih (step w c op) (step_preserves_states w c op hc)
  refine main ops {} ?_
  intro r hr
  simp [AssemblyRegisterPool.currentRegisterPool] at hr

/-- Witness for claim C9: the handle created by a concrete resolve is in
exactly one of the four states. -/
theorem every_handle_witness :
    inFourStates resolvedHandle.state = true :=
  every_handle_in_exactly_one_of_four_states exampleWorld
    [PoolOp.resolveOp 0 sym1] resolvedHandle (by decide)

end Snex
